import Mathlib

/-!
Verification development for the E07-400MM (CC1101-clone) driver stack:
the ESP32 SPI clock-divider computation, the two HAL SPI engines, and the
clone-chip quirk driver (telemetry conversion, packet reception, spectrum
scan).  C++ sources are embedded shallowly: machine integers become `Nat`
(with explicit `% 256` where a byte is read), IEEE `float` telemetry and
frequency arithmetic becomes `ℚ` (every concrete value the theorems touch
is a small dyadic rational, on which binary32 arithmetic is exact), and
hardware access becomes an explicit environment (a byte stream for SPI
reads, success oracles for bus calls) plus a trace of issued operations.
-/

/-- Modelled from the spec: RadioLib's typed status codes (`TypeDef.h` is not
under `src/`).  The spec's error kinds are distinct typed results; only their
identity matters here, so they are modelled as a four-constructor inductive:
success, invalid-payload, checksum-mismatch, and the invalid-parameters code
(`RADIOLIB_ERR_INVALID_RSSI_OFFSET`) that `scanRSSI` returns. -/
inductive RlErr
  | ok
  | invalidPayload
  | crcMismatch
  | invalidRssiOffset
  deriving DecidableEq, Repr

/-- A byte read from the SPI environment stream: value of the stream at
index `i`, reduced to a `uint8_t`. -/
def byteAt (env : Nat → Nat) (i : Nat) : Nat := env i % 256

theorem byteAt_lt (env : Nat → Nat) (i : Nat) : byteAt env i < 256 :=
  Nat.mod_lt _ (by norm_num)

/-! ## ClockDivider (`spiFrequencyToClockDiv`, bit-level `EspHal`)

The ESP32 SPI clock register fields (`spiClk_t`): `clkcnt_l` bits 0–5,
`clkcnt_h` bits 6–11, `clkcnt_n` bits 12–17, `clkdiv_pre` bits 18–30,
`clk_equ_sysclk` bit 31.  The search only ever sets `clkcnt_l`, `clkcnt_n`
and `clkdiv_pre` (`clkcnt_h` stays 0), so a register value is assembled
from those three fields. -/

/-- `ClkRegToFreq`: decoded frequency of a register setting,
`apb / ((pre + 1) * (n + 1))` (integer division, as in the C macro). -/
def clkRegToFreq (apb pre n : Nat) : Nat := apb / ((pre + 1) * (n + 1))

/-- Assemble the 32-bit register value from the `clkcnt_l`, `clkcnt_n` and
`clkdiv_pre` fields (the only fields the search writes; `clkcnt_h` and
`clk_equ_sysclk` remain 0). -/
def regVal (l n pre : Nat) : Nat := l + 4096 * n + 262144 * pre

/-- `SPI_CLK_EQU_SYSCLK` (bit 31): the bypass encoding returned when the
target frequency is at least the bus clock. -/
def SPI_CLK_EQU_SYSCLK : Nat := 2 ^ 31

/-- Clamp of the signed prescaler candidate `calPre` exactly as in the
source: values above `0x1FFF` saturate to `0x1FFF`, values `≤ 0` to 0. -/
def clampPre (p : Int) : Nat :=
  if p > 8191 then 8191 else if p ≤ 0 then 0 else p.toNat

/-- The prescaler candidate for counter `n` and variation `v`:
`calPre = (((apb / (n+1)) / freq) - 1) + calPreVari`, clamped. -/
def candPre (apb freq n : Nat) (v : Int) : Nat :=
  clampPre (((apb / (n + 1)) / freq : Nat) - 1 + v)

/-- One candidate of the divider search: its assembled register value and
its decoded frequency. -/
structure DivCand where
  val : Nat
  freq : Nat
  deriving DecidableEq, Repr

/-- Build the candidate for counter `n` and variation `v`: prescaler from
`candPre`, `clkcnt_l = (n+1)/2`, decoded frequency from `clkRegToFreq`. -/
def candOf (apb freq n : Nat) (v : Int) : DivCand :=
  { val := regVal ((n + 1) / 2) n (candPre apb freq n v)
    freq := clkRegToFreq apb (candPre apb freq n v) n }

/-- The inner `calPreVari` loop of `spiFrequencyToClockDiv` over the listed
variations, carried out on the running `(bestReg.value, bestFreq)` pair.
Returns the updated pair and whether an exact match fired (`break`): on an
exact match the register value is latched and the loop exits; otherwise a
candidate strictly below the target replaces the best when its error
`freq - calFreq` is strictly smaller than `freq - bestFreq` (the source's
`RADIOLIB_ABS` comparisons on values below `freq`). -/
def tryVari (apb freq n : Nat) : List Int → Nat × Nat → (Nat × Nat) × Bool
  | [], best => (best, false)
  | v :: rest, best =>
    let c := candOf apb freq n v
    if c.freq = freq then ((c.val, best.2), true)
    else if c.freq < freq ∧ freq - c.freq < freq - best.2 then
      tryVari apb freq n rest (c.val, c.freq)
    else
      tryVari apb freq n rest best

/-- The outer `calN` loop: counters are visited in increasing order, each
running the four variations `-1, 0, 1, 2` (the post-incremented
`calPreVari` values of the `while (calPreVari++ <= 1)` loop); an exact
match breaks out and returns the latched register value. -/
def searchLoop (apb freq : Nat) : List Nat → Nat × Nat → Nat
  | [], best => best.1
  | n :: rest, best =>
    match tryVari apb freq n [-1, 0, 1, 2] best with
    | (best2, true) => best2.1
    | (best2, false) => searchLoop apb freq rest best2

/-- `spiFrequencyToClockDiv` from the bit-level `EspHal`: bypass for
`freq ≥ apb_freq`; the fixed saturated register `0x7FFFF000` for targets
below the minimum decodable frequency `apb / (8192 * 64)`; otherwise the
counter/prescaler search over counters 1..63 starting from
`bestReg = {0}, bestFreq = 0`.  The APB frequency (`getApbFrequency`) is a
parameter. -/
def spiFrequencyToClockDiv (apb freq : Nat) : Nat :=
  if freq ≥ apb then SPI_CLK_EQU_SYSCLK
  else if freq < apb / 524288 then 0x7FFFF000
  else searchLoop apb freq ((List.range 63).map (· + 1)) (0, 0)

/-! ### The claim's search procedure, and a declarative description of the
code's search.  `spec3ClockDiv` follows the claim's words: three
neighbouring prescaler candidates per counter (one below, the naive one,
one above), first exact match wins, otherwise the candidate minimising
absolute error with any from-below candidate preferred over any from-above
candidate.  `specClockDiv` states the code's actual selection
declaratively: four candidate variations, first exact match wins, else the
closest strictly-from-below candidate. -/

/-- Candidates in traversal order: counters 1..63, the given variation list
within each counter. -/
def allCands (apb freq : Nat) (vs : List Int) : List DivCand :=
  ((List.range 63).map (· + 1)).flatMap fun n => vs.map (candOf apb freq n)

/-- Register value of the first candidate whose decoded frequency is
exactly the target, if any. -/
def firstExactVal (freq : Nat) : List DivCand → Option Nat
  | [] => none
  | c :: rest => if c.freq = freq then some c.val else firstExactVal freq rest

/-- Distance of a decoded frequency from the target. -/
def candErr (freq f : Nat) : Nat := if f < freq then freq - f else f - freq

/-- Candidate `c` is strictly better than `cur` under the claim's policy:
a from-below candidate beats any from-above candidate, and on the same
side a strictly smaller absolute error wins (so the earliest candidate
wins ties). -/
def betterB (freq : Nat) (c cur : DivCand) : Bool :=
  (decide (c.freq < freq) && !(decide (cur.freq < freq))) ||
    ((decide (c.freq < freq) == decide (cur.freq < freq)) &&
      decide (candErr freq c.freq < candErr freq cur.freq))

/-- Fold selecting the best candidate under `betterB`, earliest-first. -/
def pickBest (freq : Nat) : List DivCand → Option DivCand → Option DivCand
  | [], cur => cur
  | c :: rest, none => pickBest freq rest (some c)
  | c :: rest, some cur =>
    pickBest freq rest (some (if betterB freq c cur then c else cur))

/-- The claim's procedure, taken at its words: bypass at or above the bus
clock; otherwise counters 1..63 in increasing order with the three
variations `-1, 0, 1` around the naive quotient, stopping at the first
exact match, else the error-minimising candidate with from-below preferred
over from-above. -/
def spec3ClockDiv (apb freq : Nat) : Nat :=
  if freq ≥ apb then SPI_CLK_EQU_SYSCLK
  else
    match firstExactVal freq (allCands apb freq [-1, 0, 1]) with
    | some v => v
    | none =>
      match pickBest freq (allCands apb freq [-1, 0, 1]) none with
      | some c => c.val
      | none => 0

/-- Closest-strictly-below fold over a candidate list, starting from a
given `(value, frequency)` pair: a candidate strictly below the target
with a strictly smaller error replaces the current best. -/
def belowFold (freq : Nat) : List DivCand → Nat × Nat → Nat × Nat
  | [], best => best
  | c :: rest, best =>
    if c.freq < freq ∧ freq - c.freq < freq - best.2 then
      belowFold freq rest (c.val, c.freq)
    else belowFold freq rest best

/-- Declarative description of what the code's search returns: the first
exact candidate if one exists, otherwise the closest strictly-from-below
candidate (from-above candidates are never selected), starting from the
zero register. -/
def specClockDiv (apb freq : Nat) : Nat :=
  if freq ≥ apb then SPI_CLK_EQU_SYSCLK
  else if freq < apb / 524288 then 0x7FFFF000
  else
    match firstExactVal freq (allCands apb freq [-1, 0, 1, 2]) with
    | some v => v
    | none => (belowFold freq (allCands apb freq [-1, 0, 1, 2]) (0, 0)).1

/-- Sequential traversal of a flattened candidate list with the code's
exact-match early exit and closest-below tracking. -/
def seqProcess (freq : Nat) : List DivCand → Nat × Nat → Nat
  | [], best => best.1
  | c :: rest, best =>
    if c.freq = freq then c.val
    else if c.freq < freq ∧ freq - c.freq < freq - best.2 then
      seqProcess freq rest (c.val, c.freq)
    else seqProcess freq rest best

theorem seqProcess_eq (freq : Nat) (l : List DivCand) (best : Nat × Nat) :
    seqProcess freq l best =
      match firstExactVal freq l with
      | some v => v
      | none => (belowFold freq l best).1 := by
  induction l generalizing best with
  | nil => simp [seqProcess, firstExactVal, belowFold]
  | cons c rest ih =>
    by_cases hx : c.freq = freq
    · simp [seqProcess, firstExactVal, hx]
    · by_cases himp : c.freq < freq ∧ freq - c.freq < freq - best.2
      · simp [seqProcess, firstExactVal, belowFold, hx, himp, ih]
      · simp [seqProcess, firstExactVal, belowFold, hx, himp, ih]

theorem tryVari_seq (apb freq n : Nat) (vs : List Int) (tail : List DivCand)
    (best : Nat × Nat) :
    (match tryVari apb freq n vs best with
     | (best2, true) => best2.1
     | (best2, false) => seqProcess freq tail best2) =
      seqProcess freq (vs.map (candOf apb freq n) ++ tail) best := by
  induction vs generalizing best with
  | nil => simp [tryVari]
  | cons v rest ih =>
    by_cases hx : (candOf apb freq n v).freq = freq
    · simp [tryVari, seqProcess, hx]
    · by_cases himp : (candOf apb freq n v).freq < freq ∧
        freq - (candOf apb freq n v).freq < freq - best.2
      · simp [tryVari, seqProcess, hx, himp, ih]
      · simp [tryVari, seqProcess, hx, himp, ih]

theorem searchLoop_seq (apb freq : Nat) (ns : List Nat) (best : Nat × Nat) :
    searchLoop apb freq ns best =
      seqProcess freq
        (ns.flatMap fun n => ([-1, 0, 1, 2] : List Int).map (candOf apb freq n))
        best := by
  induction ns generalizing best with
  | nil => simp [searchLoop, seqProcess]
  | cons n rest ih =>
    rw [List.flatMap_cons, ← tryVari_seq]
    unfold searchLoop
    cases h : tryVari apb freq n [-1, 0, 1, 2] best with
    | mk best2 flag =>
      cases flag with
      | true => simp
      | false => simp [ih]

theorem spiFrequencyToClockDiv_eq_spec (apb freq : Nat) :
    spiFrequencyToClockDiv apb freq = specClockDiv apb freq := by
  unfold spiFrequencyToClockDiv specClockDiv
  by_cases h1 : freq ≥ apb
  · simp [h1]
  · by_cases h2 : freq < apb / 524288
    · simp [h1, h2]
    · simp only [h1, h2, if_false, if_neg h1, if_neg h2]
      rw [searchLoop_seq, seqProcess_eq, allCands]

theorem firstExactVal_mem (freq : Nat) (l : List DivCand) (v : Nat)
    (h : firstExactVal freq l = some v) : v ∈ l.map (fun c => c.val) := by
  induction l with
  | nil => simp [firstExactVal] at h
  | cons c rest ih =>
    by_cases hx : c.freq = freq
    · simp [firstExactVal, hx] at h
      simp [h]
    · simp [firstExactVal, hx] at h
      simp [ih h]

theorem pickBest_some_mem (freq : Nat) (l : List DivCand) (cur : Option DivCand)
    (c : DivCand) (h : pickBest freq l cur = some c) : c ∈ l ∨ cur = some c := by
  induction l generalizing cur with
  | nil => simp [pickBest] at h; simp [h]
  | cons d rest ih =>
    cases cur with
    | none =>
      rcases ih (some d) h with hm | he
      · exact Or.inl (List.mem_cons_of_mem _ hm)
      · simp at he
        simp [he]
    | some u =>
      rcases ih (some (if betterB freq d u then d else u)) h with hm | he
      · exact Or.inl (List.mem_cons_of_mem _ hm)
      · by_cases hb : betterB freq d u
        · simp [hb] at he
          simp [he]
        · simp [hb] at he
          exact Or.inr (by simp [he])

theorem pickBest_none (freq : Nat) (l : List DivCand) (cur : Option DivCand)
    (h : pickBest freq l cur = none) : l = [] ∧ cur = none := by
  induction l generalizing cur with
  | nil => exact ⟨rfl, h⟩
  | cons d rest ih =>
    cases cur with
    | none => simpa using (ih (some d) h).2
    | some u => simpa using (ih (some (if betterB freq d u then d else u)) h).2

/-- Whenever the target is below the bus clock and the candidate list is
non-empty, the claim's procedure returns the register value of one of its
own candidates. -/
theorem spec3ClockDiv_mem (apb freq : Nat) (h1 : ¬ freq ≥ apb)
    (h2 : allCands apb freq [-1, 0, 1] ≠ []) :
    spec3ClockDiv apb freq ∈ (allCands apb freq [-1, 0, 1]).map (fun c => c.val) := by
  unfold spec3ClockDiv
  rw [if_neg h1]
  cases hfe : firstExactVal freq (allCands apb freq [-1, 0, 1]) with
  | some v => exact firstExactVal_mem _ _ _ hfe
  | none =>
    cases hpb : pickBest freq (allCands apb freq [-1, 0, 1]) none with
    | none => exact absurd (pickBest_none _ _ _ hpb).1 h2
    | some c =>
      rcases pickBest_some_mem _ _ _ _ hpb with hm | he
      · exact List.mem_map_of_mem _ hm
      · simp at he

/-- C5 (amended): for every bus clock and target frequency,
`spiFrequencyToClockDiv` returns the bypass encoding for targets at or
above the bus clock, the fixed saturated encoding `0x7FFFF000` for targets
below the minimum decodable frequency `busClock / 524288`, and otherwise
the encoding chosen by iterating counter values 1..63 in increasing order,
trying for each counter four neighbouring prescaler candidates (one below
the naive quotient through two above), clamped to [0, 8191], stopping
early on the first exact match, and otherwise returning the candidate
closest to the target strictly from below (a from-above candidate is
never selected). -/
theorem C5_clockDiv_amended (apb freq : Nat) :
    spiFrequencyToClockDiv apb freq = specClockDiv apb freq :=
  spiFrequencyToClockDiv_eq_spec apb freq

/-- C5 (counterexample): at bus clock 80 MHz and target 150 Hz (which
satisfies `0 < f < busClock`), the code returns the saturated encoding
`0x7FFFF000`, which is not the bypass encoding and not the register value
of any candidate the claim's three-variation search procedure can produce
(every candidate carries `clkcnt_l = (n+1)/2 ≥ 1`, the fast-path value has
`clkcnt_l = 0`); in particular the returned encoding differs from the
claim procedure's result. -/
theorem C5_counterexample :
    0 < 150 ∧ 150 < 80000000 ∧
      spiFrequencyToClockDiv 80000000 150 = 0x7FFFF000 ∧
      spiFrequencyToClockDiv 80000000 150 ∉
        (allCands 80000000 150 [-1, 0, 1]).map (fun c => c.val) ∧
      spiFrequencyToClockDiv 80000000 150 ≠ spec3ClockDiv 80000000 150 := by
  have hmem := spec3ClockDiv_mem 80000000 150 (by decide)
    (by set_option maxRecDepth 10000 in decide)
  have hnot : spiFrequencyToClockDiv 80000000 150 ∉
      (allCands 80000000 150 [-1, 0, 1]).map (fun c => c.val) := by
    set_option maxRecDepth 10000 in decide
  refine ⟨by decide, by decide, by decide, hnot, fun he => hnot (he ▸ hmem)⟩

/-! ## `convertRSSI` (RadioQuirkDriver telemetry conversion)

`float` arithmetic on a raw byte: every value is a multiple of 1/2, on
which binary32 arithmetic is exact, so the function is embedded over `ℚ`. -/

/-- `E07_400MM::convertRSSI`: the CC1101 two-piece RSSI conversion,
`((raw - 256) / 2) - 74` for `raw ≥ 128` and `(raw / 2) - 74` otherwise. -/
def convertRSSI (rssi_raw : Nat) : ℚ :=
  if rssi_raw ≥ 128 then ((rssi_raw : ℚ) - 256) / 2 - 74
  else (rssi_raw : ℚ) / 2 - 74

theorem convertRSSI_range (r : Nat) (h : r < 256) :
    -138 ≤ convertRSSI r ∧ convertRSSI r ≤ -21/2 := by
  unfold convertRSSI
  by_cases hr : r ≥ 128
  · have h1 : (128 : ℚ) ≤ (r : ℚ) := by exact_mod_cast hr
    have h2 : (r : ℚ) ≤ 255 := by exact_mod_cast Nat.le_of_lt_succ h
    rw [if_pos hr]
    constructor <;> [linarith; linarith]
  · have h1 : (0 : ℚ) ≤ (r : ℚ) := Nat.cast_nonneg r
    have h2 : (r : ℚ) ≤ 127 := by
      exact_mod_cast Nat.le_of_lt_succ (Nat.lt_of_not_le hr)
    rw [if_neg hr]
    constructor <;> [linarith; linarith]

/-- C6: for every raw telemetry byte `r < 256`, `convertRSSI` yields
`(r/2) - 74` when `r < 128` and `((r - 256)/2) - 74` when `r ≥ 128`
(rational subtraction: the C `rssi_raw - 256` is signed arithmetic), and
the two boundary values match the formulas exactly at the seam:
`convertRSSI 127 = -10.5` and `convertRSSI 128 = -138`. -/
theorem C6_convertRSSI (r : Nat) (h : r < 256) :
    convertRSSI r =
        (if r < 128 then (r : ℚ) / 2 - 74 else ((r : ℚ) - 256) / 2 - 74) ∧
      convertRSSI 127 = -21/2 ∧ convertRSSI 128 = -138 := by
  refine ⟨?_, by norm_num [convertRSSI], by norm_num [convertRSSI]⟩
  unfold convertRSSI
  by_cases hr : r ≥ 128
  · rw [if_pos hr, if_neg (by omega)]
  · rw [if_neg hr, if_pos (by omega)]

/-- C6 witness: the theorem applied at the seam value `r = 127`. -/
theorem C6_convertRSSI_witness :
    127 < 256 ∧
      (convertRSSI 127 =
          (if 127 < 128 then (127 : ℚ) / 2 - 74 else ((127 : ℚ) - 256) / 2 - 74) ∧
        convertRSSI 127 = -21/2 ∧ convertRSSI 128 = -138) :=
  ⟨by norm_num, C6_convertRSSI 127 (by norm_num)⟩

/-! ## RadioQuirkDriver packet reception (`getPacketLength` / `readData`)

The repository carries two variants of `E07400MM.cpp`.  In the first,
`readData` itself performs the declared-length sanity check and returns
the invalid-payload failure; in the second, the check lives inside
`getPacketLength` (which flushes the RX FIFO, re-arms receive and yields
0) and `readData`'s own check is commented out.  Both are embedded.

Modelled from the spec: the RadioLib SPI helpers used by this code are not
under `src/` — `SPIreadRegisterBurst` delivers the chip's successive
response bytes (modelled as an environment byte stream consumed in order),
`SPIsendCommand` issues a strobe command, and `startReceive` re-arms
receive mode; the latter two are modelled as opaque traced commands. -/

/-- Commands issued by the receive path and recorded in order:
`RADIOLIB_CC1101_CMD_FLUSH_RX` and the receive re-arm (`startReceive`). -/
inductive RadioCmd
  | flushRx
  | srx
  deriving DecidableEq, Repr

/-- Driver state touched by the receive path: the cached packet length and
its query flag, the checksum-enforcement flag `crcOn`, the stored raw
telemetry bytes, the SPI read-stream position, and the command trace. -/
structure E07State where
  packetLength : Nat
  packetLengthQueried : Bool
  crcOn : Bool
  rawRSSI : Nat
  rawLQI : Nat
  pos : Nat
  cmds : List RadioCmd
  deriving DecidableEq, Repr

/-- Modelled from the spec: `RADIOLIB_CC1101_MAX_PACKET_LENGTH` (255), a
RadioLib constant not under `src/`. -/
def maxPacketLength : Nat := 255

/-- `SPIreadRegisterBurst(reg, 1, &b)`: consume one byte from the stream. -/
def readByte (env : Nat → Nat) (s : E07State) : Nat × E07State :=
  (byteAt env s.pos, { s with pos := s.pos + 1 })

/-- `SPIreadRegisterBurst(reg, n, buf)`: consume `n` bytes from the stream. -/
def readBurst (env : Nat → Nat) (s : E07State) (n : Nat) : List Nat × E07State :=
  ((List.range n).map (fun i => byteAt env (s.pos + i)), { s with pos := s.pos + n })

/-- Record an issued command in the trace. -/
def pushCmds (s : E07State) (cs : List RadioCmd) : E07State :=
  { s with cmds := s.cmds ++ cs }

/-- `E07_400MM::getPacketLength` (first variant): cached value unless
`update` is set or nothing is cached; otherwise one burst FIFO byte,
cached and returned with no sanity check. -/
def getPacketLength_v1 (env : Nat → Nat) (update : Bool) (s : E07State) :
    Nat × E07State :=
  if update = false ∧ s.packetLengthQueried = true then (s.packetLength, s)
  else
    let r := readByte env s
    (r.1, { r.2 with packetLength := r.1, packetLengthQueried := true })

/-- `E07_400MM::getPacketLength` (second variant): as the first, but an
out-of-range byte flushes the RX FIFO, re-arms receive (`startReceive`)
and yields 0 without caching. -/
def getPacketLength_v2 (env : Nat → Nat) (update : Bool) (s : E07State) :
    Nat × E07State :=
  if update = false ∧ s.packetLengthQueried = true then (s.packetLength, s)
  else
    let r := readByte env s
    if r.1 = 0 ∨ r.1 > maxPacketLength then
      (0, pushCmds r.2 [RadioCmd.flushRx, RadioCmd.srx])
    else
      (r.1, { r.2 with packetLength := r.1, packetLengthQueried := true })

/-- `E07_400MM::readData` (first variant).  Returns the status, the bytes
written into the caller's buffer, and the final state.  Clears the cached
flag, fetches the declared length, rejects 0 / over-maximum lengths
(flush + re-arm + invalid-payload), otherwise reads `min(length, len)`
payload bytes, the trailing RSSI byte and the trailing LQI/CRC byte,
stores `rawRSSI` and `rawLQI = lqi & 0x7F`, fails with checksum-mismatch
when bit 7 is clear and `crcOn` is set, and re-arms receive on every path. -/
def readData_v1 (env : Nat → Nat) (s0 : E07State) (len : Nat) :
    RlErr × List Nat × E07State :=
  let s1 := { s0 with packetLengthQueried := false }
  let r := getPacketLength_v1 env true s1
  if r.1 = 0 ∨ r.1 > maxPacketLength then
    (RlErr.invalidPayload, [], pushCmds r.2 [RadioCmd.flushRx, RadioCmd.srx])
  else
    let rl := if r.1 < len then r.1 else len
    let p := readBurst env r.2 rl
    let b1 := readByte env p.2
    let b2 := readByte env b1.2
    let s6 := { b2.2 with rawRSSI := b1.1, rawLQI := b2.1 % 128 }
    -- bit 7 of the LQI/CRC byte (a value < 256) is clear iff the byte is < 128
    if b2.1 < 128 ∧ s6.crcOn = true then
      (RlErr.crcMismatch, p.1, pushCmds s6 [RadioCmd.srx])
    else
      (RlErr.ok, p.1, pushCmds s6 [RadioCmd.srx])

/-- `E07_400MM::readData` (second variant): identical tail, but the length
sanity check is commented out and the length comes from
`getPacketLength_v2` (0 after an in-helper rejection). -/
def readData_v2 (env : Nat → Nat) (s0 : E07State) (len : Nat) :
    RlErr × List Nat × E07State :=
  let s1 := { s0 with packetLengthQueried := false }
  let r := getPacketLength_v2 env true s1
  let rl := if r.1 < len then r.1 else len
  let p := readBurst env r.2 rl
  let b1 := readByte env p.2
  let b2 := readByte env b1.2
  let s6 := { b2.2 with rawRSSI := b1.1, rawLQI := b2.1 % 128 }
  -- bit 7 of the LQI/CRC byte (a value < 256) is clear iff the byte is < 128
  if b2.1 < 128 ∧ s6.crcOn = true then
    (RlErr.crcMismatch, p.1, pushCmds s6 [RadioCmd.srx])
  else
    (RlErr.ok, p.1, pushCmds s6 [RadioCmd.srx])

/-- A driver state fresh out of the constructor, with the given checksum
enforcement setting. -/
def e07Init (crc : Bool) : E07State :=
  { packetLength := 0, packetLengthQueried := false, crcOn := crc
    rawRSSI := 0, rawLQI := 0, pos := 0, cmds := [] }

/-- C1 (counterexample): a declared packet length of 0 read from the FIFO,
with checksum enforcement off, makes the second `readData` variant return
success (`RADIOLIB_ERR_NONE`), so `readData` is not guaranteed to return
the invalid-payload failure for such a length. -/
theorem C1_counterexample :
    byteAt (fun _ => 0) (e07Init false).pos = 0 ∧
      (readData_v2 (fun _ => 0) (e07Init false) 64).1 = RlErr.ok := by
  exact ⟨rfl, by decide⟩

/-- C1 (amended): when the declared packet length read from the FIFO is 0
or greater than the maximum packet length, the first `readData` variant
returns the invalid-payload failure and delivers no payload bytes; the
second variant likewise delivers no payload bytes (its `getPacketLength`
flushes the FIFO, re-arms receive and yields length 0), but it does not
return the invalid-payload failure and can return success. -/
theorem C1_readData_amended (env : Nat → Nat) (s : E07State) (len : Nat)
    (h : byteAt env s.pos = 0 ∨ byteAt env s.pos > maxPacketLength) :
    (readData_v1 env s len).1 = RlErr.invalidPayload ∧
      (readData_v1 env s len).2.1 = [] ∧ (readData_v2 env s len).2.1 = [] := by
  have hlt := byteAt_lt env s.pos
  have h0 : byteAt env s.pos = 0 := by
    rcases h with h | h
    · exact h
    · exfalso; unfold maxPacketLength at h; omega
  refine ⟨?_, ?_, ?_⟩
  · simp [readData_v1, getPacketLength_v1, readByte, pushCmds, h0]
  · simp [readData_v1, getPacketLength_v1, readByte, pushCmds, h0]
  · simp only [readData_v2, getPacketLength_v2, readByte, readBurst, pushCmds]
    simp [h0]
    rcases Nat.eq_zero_or_pos len with hl | hl <;> simp [hl] <;> split <;> simp

/-- C1 witness: the amended theorem applied at the all-zero byte stream
and a fresh driver state. -/
theorem C1_readData_amended_witness :
    (byteAt (fun _ => 0) (e07Init true).pos = 0 ∨
        byteAt (fun _ => 0) (e07Init true).pos > maxPacketLength) ∧
      ((readData_v1 (fun _ => 0) (e07Init true) 64).1 = RlErr.invalidPayload ∧
        (readData_v1 (fun _ => 0) (e07Init true) 64).2.1 = [] ∧
        (readData_v2 (fun _ => 0) (e07Init true) 64).2.1 = []) :=
  ⟨Or.inl rfl, C1_readData_amended (fun _ => 0) (e07Init true) 64 (Or.inl rfl)⟩

/-- C2: whenever the declared length byte is non-zero (so the receive path
reaches the trailing status bytes), both `readData` variants return the
checksum-mismatch failure — and thus do not report delivered payload —
when the trailing status byte's CRC-OK bit (bit 7) is clear and checksum
enforcement (`crcOn`) is enabled; and with enforcement disabled they
return success regardless of the CRC-OK bit. -/
theorem C2_readData_checksum (env : Nat → Nat) (s : E07State) (len : Nat)
    (hd : byteAt env s.pos ≠ 0) :
    (byteAt env
          ((s.pos + 1 + if byteAt env s.pos < len then byteAt env s.pos else len) + 1) < 128 →
        s.crcOn = true →
        (readData_v1 env s len).1 = RlErr.crcMismatch ∧
          (readData_v2 env s len).1 = RlErr.crcMismatch) ∧
      (s.crcOn = false →
        (readData_v1 env s len).1 = RlErr.ok ∧ (readData_v2 env s len).1 = RlErr.ok) := by
  have hlt := byteAt_lt env s.pos
  have hle : ¬ maxPacketLength < byteAt env s.pos := by
    unfold maxPacketLength
    omega
  constructor
  · intro hbit hcrc
    constructor
    · simp only [readData_v1, getPacketLength_v1, readByte, readBurst, pushCmds]
      simp [hd, hle, hbit, hcrc]
    · simp only [readData_v2, getPacketLength_v2, readByte, readBurst, pushCmds]
      simp [hd, hle, hbit, hcrc]
  · intro hcrc
    constructor
    · simp only [readData_v1, getPacketLength_v1, readByte, readBurst, pushCmds]
      simp [hd, hle, hcrc]
    · simp only [readData_v2, getPacketLength_v2, readByte, readBurst, pushCmds]
      simp [hd, hle, hcrc]

/-- An environment whose declared-length byte is 2 and whose payload and
status bytes are all 0 (so the CRC-OK bit is clear). -/
def crcEnv : Nat → Nat := fun i => if i = 0 then 2 else 0

/-- C2 witness: the theorem applied to a 2-byte packet with a cleared
CRC-OK bit and enforcement enabled. -/
theorem C2_readData_checksum_witness :
    byteAt crcEnv (e07Init true).pos ≠ 0 ∧
      ((readData_v1 crcEnv (e07Init true) 8).1 = RlErr.crcMismatch ∧
        (readData_v2 crcEnv (e07Init true) 8).1 = RlErr.crcMismatch) :=
  ⟨by decide,
    (C2_readData_checksum crcEnv (e07Init true) 8 (by decide)).1 (by decide) rfl⟩

/-- C3: on every exit path of both `readData` variants — invalid declared
length, checksum mismatch, and success — receive mode is re-armed before
returning: the count of `startReceive` commands in the trace strictly
increases. -/
theorem C3_readData_rearms (env : Nat → Nat) (s : E07State) (len : Nat) :
    s.cmds.count RadioCmd.srx + 1 ≤
        (readData_v1 env s len).2.2.cmds.count RadioCmd.srx ∧
      s.cmds.count RadioCmd.srx + 1 ≤
        (readData_v2 env s len).2.2.cmds.count RadioCmd.srx := by
  constructor
  · simp only [readData_v1, getPacketLength_v1, readByte, readBurst, pushCmds,
      Bool.true_eq_false, false_and, if_false]
    repeat' split
    all_goals simp [List.count_append, List.count_cons]
  · simp only [readData_v2, getPacketLength_v2, readByte, readBurst, pushCmds,
      Bool.true_eq_false, false_and, if_false]
    repeat' split
    all_goals simp [List.count_append, List.count_cons]

/-- C9: when either `readData` variant fails with checksum-mismatch, the
caller's buffer has already received `min(declaredLength, maxLen)` payload
bytes from the FIFO, and the stored raw telemetry fields have already been
updated from the two trailing status bytes (`rawRSSI` from the first,
`rawLQI` from the low 7 bits of the second): the failure is not atomic
with respect to the output buffer or the telemetry state. -/
theorem C9_readData_nonatomic (env : Nat → Nat) (s : E07State) (len : Nat) :
    ((readData_v1 env s len).1 = RlErr.crcMismatch →
        (readData_v1 env s len).2.1 =
            (List.range (if byteAt env s.pos < len then byteAt env s.pos else len)).map
              (fun i => byteAt env (s.pos + 1 + i)) ∧
          (readData_v1 env s len).2.2.rawRSSI =
            byteAt env
              (s.pos + 1 + (if byteAt env s.pos < len then byteAt env s.pos else len)) ∧
          (readData_v1 env s len).2.2.rawLQI =
            byteAt env
              ((s.pos + 1 + if byteAt env s.pos < len then byteAt env s.pos else len) + 1) % 128) ∧
      ((readData_v2 env s len).1 = RlErr.crcMismatch →
        (readData_v2 env s len).2.1 =
            (List.range (if byteAt env s.pos < len then byteAt env s.pos else len)).map
              (fun i => byteAt env (s.pos + 1 + i)) ∧
          (readData_v2 env s len).2.2.rawRSSI =
            byteAt env
              (s.pos + 1 + (if byteAt env s.pos < len then byteAt env s.pos else len)) ∧
          (readData_v2 env s len).2.2.rawLQI =
            byteAt env
              ((s.pos + 1 + if byteAt env s.pos < len then byteAt env s.pos else len) + 1) % 128) := by
  have hlt := byteAt_lt env s.pos
  constructor
  · intro h
    by_cases h0 : byteAt env s.pos = 0
    · simp [readData_v1, getPacketLength_v1, readByte, readBurst, pushCmds, h0] at h
    · have hle : ¬ maxPacketLength < byteAt env s.pos := by
        unfold maxPacketLength
        omega
      by_cases hc : byteAt env
          ((s.pos + 1 + if byteAt env s.pos < len then byteAt env s.pos else len) + 1) < 128 ∧
          s.crcOn = true
      · simp [readData_v1, getPacketLength_v1, readByte, readBurst, pushCmds, h0, hle, hc]
      · simp [readData_v1, getPacketLength_v1, readByte, readBurst, pushCmds, h0, hle, hc] at h
  · intro h
    by_cases h0 : byteAt env s.pos = 0
    · simp [readData_v2, getPacketLength_v2, readByte, readBurst, pushCmds, h0]
      rcases Nat.eq_zero_or_pos len with hl | hl <;> simp [hl] <;> split <;> simp
    · have hle : ¬ maxPacketLength < byteAt env s.pos := by
        unfold maxPacketLength
        omega
      by_cases hc : byteAt env
          ((s.pos + 1 + if byteAt env s.pos < len then byteAt env s.pos else len) + 1) < 128 ∧
          s.crcOn = true
      · simp [readData_v2, getPacketLength_v2, readByte, readBurst, pushCmds, h0, hle, hc]
      · simp [readData_v2, getPacketLength_v2, readByte, readBurst, pushCmds, h0, hle, hc] at h

/-- C9 witness: the theorem applied to a 2-byte packet whose CRC check
fails, showing the buffer and telemetry bytes were written. -/
theorem C9_readData_nonatomic_witness :
    (readData_v1 crcEnv (e07Init true) 8).1 = RlErr.crcMismatch ∧
      (readData_v1 crcEnv (e07Init true) 8).2.2.rawRSSI =
        byteAt crcEnv
          ((e07Init true).pos + 1 +
            (if byteAt crcEnv (e07Init true).pos < 8 then byteAt crcEnv (e07Init true).pos
              else 8)) :=
  ⟨by decide,
    ((C9_readData_nonatomic crcEnv (e07Init true) 8).1 (by decide)).2.1⟩

/-! ## `scanRSSI` (RadioQuirkDriver spectrum scan)

Frequencies are `float` in the source and `ℚ` here; for the concrete
inputs in the theorems below (433 MHz centre, 250 kHz step, 5 points)
every intermediate value is a small dyadic rational on which binary32
arithmetic is exact.  The two repository variants differ only in where
the RX strobe is issued: once before the loop (first variant) or after
every frequency change (second variant).

Modelled from the spec: `setFrequency`, `SPIsendCommand`, `standby` and
the delay primitive are inherited driver / platform calls not under
`src/`; `setFrequency` is modelled as a traced operation whose success is
decided by an environment oracle, `getRSSI`'s burst register read by an
environment byte per frequency, and the strobes and delay as traced
operations. -/

/-- Hardware operations issued by the scan, in order: RX strobe, standby
strobe, frequency programming, the AGC-settling delay, and the RSSI
register read. -/
inductive HwOp
  | cmdRx
  | cmdStandby
  | setFreq (f : ℚ)
  | delayUs (us : Nat)
  | readRssi
  deriving DecidableEq, Repr

/-- Environment of a scan: whether `setFrequency` succeeds at a given
frequency, and the raw RSSI byte a register read returns there. -/
structure ScanEnv where
  setFreqOk : ℚ → Bool
  rssiByte : ℚ → Nat

/-- Dwell-time clamping at the top of `scanRSSI`: below 500 µs up to
500 µs, above 50000 µs down to 50000 µs. -/
def clampDwell (d : Nat) : Nat :=
  if d < 500 then 500 else if d > 50000 then 50000 else d

/-- The scan loop of the first variant: per point, program the frequency
(recording it); on failure record the `-999.0` sentinel and continue; on
success wait the dwell time and record a live RSSI read converted by
`convertRSSI`.  Returns the RSSI outputs and the operation trace. -/
def scanPoints_v1 (env : ScanEnv) (d : Nat) (stepMhz : ℚ) :
    Nat → ℚ → List ℚ × List HwOp
  | 0, _ => ([], [])
  | k + 1, f =>
    let rest := scanPoints_v1 env d stepMhz k (f + stepMhz)
    if env.setFreqOk f then
      (convertRSSI (env.rssiByte f % 256) :: rest.1,
        [HwOp.setFreq f, HwOp.delayUs d, HwOp.readRssi] ++ rest.2)
    else
      ((-999 : ℚ) :: rest.1, [HwOp.setFreq f] ++ rest.2)

/-- The scan loop of the second variant: as the first, but an RX strobe is
issued after each successful frequency change. -/
def scanPoints_v2 (env : ScanEnv) (d : Nat) (stepMhz : ℚ) :
    Nat → ℚ → List ℚ × List HwOp
  | 0, _ => ([], [])
  | k + 1, f =>
    let rest := scanPoints_v2 env d stepMhz k (f + stepMhz)
    if env.setFreqOk f then
      (convertRSSI (env.rssiByte f % 256) :: rest.1,
        [HwOp.setFreq f, HwOp.cmdRx, HwOp.delayUs d, HwOp.readRssi] ++ rest.2)
    else
      ((-999 : ℚ) :: rest.1, [HwOp.setFreq f] ++ rest.2)

/-- `E07_400MM::scanRSSI` (first variant): parameter validation, dwell
clamping, start frequency `center - (numPoints / 2.0) * (stepKhz / 1000)`,
one RX strobe before the loop, the scan loop, and a final standby. -/
def scanRSSI_v1 (env : ScanEnv) (outNull : Bool) (numPoints : Nat)
    (centerFreq stepKhz : ℚ) (dwellUs : Nat) : RlErr × List ℚ × List HwOp :=
  if outNull = true ∨ numPoints = 0 then (RlErr.invalidRssiOffset, [], [])
  else
    let d := clampDwell dwellUs
    let stepMhz := stepKhz / 1000
    let startFreq := centerFreq - ((numPoints : ℚ) / 2) * stepMhz
    let r := scanPoints_v1 env d stepMhz numPoints startFreq
    (RlErr.ok, r.1, HwOp.cmdRx :: r.2 ++ [HwOp.cmdStandby])

/-- `E07_400MM::scanRSSI` (second variant): as the first, but with the RX
strobe inside the loop instead of before it. -/
def scanRSSI_v2 (env : ScanEnv) (outNull : Bool) (numPoints : Nat)
    (centerFreq stepKhz : ℚ) (dwellUs : Nat) : RlErr × List ℚ × List HwOp :=
  if outNull = true ∨ numPoints = 0 then (RlErr.invalidRssiOffset, [], [])
  else
    let d := clampDwell dwellUs
    let stepMhz := stepKhz / 1000
    let startFreq := centerFreq - ((numPoints : ℚ) / 2) * stepMhz
    let r := scanPoints_v2 env d stepMhz numPoints startFreq
    (RlErr.ok, r.1, r.2 ++ [HwOp.cmdStandby])

/-- The frequencies programmed by a trace, in order. -/
def programmedFreqs (ops : List HwOp) : List ℚ :=
  ops.filterMap fun op =>
    match op with
    | HwOp.setFreq f => some f
    | _ => none

theorem programmedFreqs_append (l1 l2 : List HwOp) :
    programmedFreqs (l1 ++ l2) = programmedFreqs l1 ++ programmedFreqs l2 := by
  simp [programmedFreqs]

theorem programmedFreqs_cmdRx (l : List HwOp) :
    programmedFreqs (HwOp.cmdRx :: l) = programmedFreqs l := by
  simp [programmedFreqs]

theorem programmedFreqs_standby : programmedFreqs [HwOp.cmdStandby] = [] := by
  simp [programmedFreqs]

theorem scanPoints_v1_freqs (env : ScanEnv) (d : Nat) (stepMhz : ℚ) :
    ∀ (k : Nat) (f : ℚ),
      programmedFreqs (scanPoints_v1 env d stepMhz k f).2 =
        (List.range k).map (fun (i : Nat) => f + (i : ℚ) * stepMhz) := by
  intro k
  induction k with
  | zero => intro f; simp [scanPoints_v1, programmedFreqs]
  | succ k ih =>
    intro f
    have h1 : programmedFreqs (scanPoints_v1 env d stepMhz (k + 1) f).2 =
        f :: programmedFreqs (scanPoints_v1 env d stepMhz k (f + stepMhz)).2 := by
      by_cases hf : env.setFreqOk f = true <;>
        simp [scanPoints_v1, programmedFreqs, hf]
    rw [h1, ih, List.range_succ_eq_map, List.map_cons, List.map_map]
    congr 1
    · push_cast
      ring
    · apply List.map_congr_left
      intro a ha
      simp only [Function.comp]
      push_cast
      ring

theorem scanPoints_v2_freqs (env : ScanEnv) (d : Nat) (stepMhz : ℚ) :
    ∀ (k : Nat) (f : ℚ),
      programmedFreqs (scanPoints_v2 env d stepMhz k f).2 =
        (List.range k).map (fun (i : Nat) => f + (i : ℚ) * stepMhz) := by
  intro k
  induction k with
  | zero => intro f; simp [scanPoints_v2, programmedFreqs]
  | succ k ih =>
    intro f
    have h1 : programmedFreqs (scanPoints_v2 env d stepMhz (k + 1) f).2 =
        f :: programmedFreqs (scanPoints_v2 env d stepMhz k (f + stepMhz)).2 := by
      by_cases hf : env.setFreqOk f = true <;>
        simp [scanPoints_v2, programmedFreqs, hf]
    rw [h1, ih, List.range_succ_eq_map, List.map_cons, List.map_map]
    congr 1
    · push_cast
      ring
    · apply List.map_congr_left
      intro a ha
      simp only [Function.comp]
      push_cast
      ring

theorem scanPoints_v1_delays (env : ScanEnv) (d : Nat) (stepMhz : ℚ) :
    ∀ (k : Nat) (f : ℚ) (u : Nat),
      HwOp.delayUs u ∈ (scanPoints_v1 env d stepMhz k f).2 → u = d := by
  intro k
  induction k with
  | zero => intro f u h; simp [scanPoints_v1] at h
  | succ k ih =>
    intro f u h
    by_cases hf : env.setFreqOk f = true <;> simp [scanPoints_v1, hf] at h
    · rcases h with h | h
      · exact h
      · exact ih _ _ h
    · exact ih _ _ h

theorem scanPoints_v2_delays (env : ScanEnv) (d : Nat) (stepMhz : ℚ) :
    ∀ (k : Nat) (f : ℚ) (u : Nat),
      HwOp.delayUs u ∈ (scanPoints_v2 env d stepMhz k f).2 → u = d := by
  intro k
  induction k with
  | zero => intro f u h; simp [scanPoints_v2] at h
  | succ k ih =>
    intro f u h
    by_cases hf : env.setFreqOk f = true <;> simp [scanPoints_v2, hf] at h
    · rcases h with h | h
      · exact h
      · exact ih _ _ h
    · exact ih _ _ h

/-- A scan environment in which every frequency programs successfully and
every RSSI read returns 0. -/
def allOkEnv : ScanEnv := { setFreqOk := fun _ => true, rssiByte := fun _ => 0 }

/-- A scan environment in which no frequency programs successfully. -/
def noneOkEnv : ScanEnv := { setFreqOk := fun _ => false, rssiByte := fun _ => 0 }

/-- C8: a scan called with a null output buffer or a zero point count
fails with the invalid-parameters error code and performs no hardware
access at all (empty operation trace, no outputs), in both variants. -/
theorem C8_scanRSSI_validation (env : ScanEnv) (outNull : Bool) (numPoints : Nat)
    (centerFreq stepKhz : ℚ) (dwellUs : Nat)
    (h : outNull = true ∨ numPoints = 0) :
    scanRSSI_v1 env outNull numPoints centerFreq stepKhz dwellUs =
        (RlErr.invalidRssiOffset, [], []) ∧
      scanRSSI_v2 env outNull numPoints centerFreq stepKhz dwellUs =
        (RlErr.invalidRssiOffset, [], []) := by
  constructor <;> simp [scanRSSI_v1, scanRSSI_v2, h]

/-- C8 witness: the theorem applied to a null output buffer, and again to
a zero point count. -/
theorem C8_scanRSSI_validation_witness :
    ((true = true ∨ (5 : Nat) = 0) ∧
        scanRSSI_v1 allOkEnv true 5 433 250 3000 = (RlErr.invalidRssiOffset, [], [])) ∧
      ((false = true ∨ (0 : Nat) = 0) ∧
        scanRSSI_v2 allOkEnv false 0 433 250 3000 = (RlErr.invalidRssiOffset, [], [])) :=
  ⟨⟨Or.inl rfl,
      (C8_scanRSSI_validation allOkEnv true 5 433 250 3000 (Or.inl rfl)).1⟩,
    ⟨Or.inr rfl,
      (C8_scanRSSI_validation allOkEnv false 0 433 250 3000 (Or.inr rfl)).2⟩⟩

theorem scanPoints_v1_outputs (env : ScanEnv) (d : Nat) (stepMhz : ℚ) :
    ∀ (k : Nat) (f : ℚ) (x : ℚ), x ∈ (scanPoints_v1 env d stepMhz k f).1 →
      x = -999 ∨ (-138 ≤ x ∧ x ≤ -21/2) := by
  intro k
  induction k with
  | zero => intro f x h; simp [scanPoints_v1] at h
  | succ k ih =>
    intro f x h
    by_cases hf : env.setFreqOk f = true <;> simp [scanPoints_v1, hf] at h
    · rcases h with h | h
      · exact Or.inr (h ▸ convertRSSI_range _ (Nat.mod_lt _ (by norm_num)))
      · exact ih _ _ h
    · rcases h with h | h
      · exact Or.inl h
      · exact ih _ _ h

theorem scanPoints_v2_outputs (env : ScanEnv) (d : Nat) (stepMhz : ℚ) :
    ∀ (k : Nat) (f : ℚ) (x : ℚ), x ∈ (scanPoints_v2 env d stepMhz k f).1 →
      x = -999 ∨ (-138 ≤ x ∧ x ≤ -21/2) := by
  intro k
  induction k with
  | zero => intro f x h; simp [scanPoints_v2] at h
  | succ k ih =>
    intro f x h
    by_cases hf : env.setFreqOk f = true <;> simp [scanPoints_v2, hf] at h
    · rcases h with h | h
      · exact Or.inr (h ▸ convertRSSI_range _ (Nat.mod_lt _ (by norm_num)))
      · exact ih _ _ h
    · rcases h with h | h
      · exact Or.inl h
      · exact ih _ _ h

/-- C10: every converted RSSI value for a raw byte in [0, 255] lies in
[-138.0, -10.5] dBm and in particular differs from the scan-failure
sentinel -999.0; consequently every value a scan records is either the
sentinel -999.0 of a failed point or a live reading inside [-138, -10.5],
so failed scan points are unambiguous. -/
theorem C10_rssi_range :
    (∀ r : Nat, r < 256 →
        -138 ≤ convertRSSI r ∧ convertRSSI r ≤ -21/2 ∧ convertRSSI r ≠ -999) ∧
      (∀ (env : ScanEnv) (numPoints : Nat) (centerFreq stepKhz : ℚ)
          (dwellUs : Nat) (x : ℚ),
        x ∈ (scanRSSI_v1 env false numPoints centerFreq stepKhz dwellUs).2.1 ∨
          x ∈ (scanRSSI_v2 env false numPoints centerFreq stepKhz dwellUs).2.1 →
        x = -999 ∨ (-138 ≤ x ∧ x ≤ -21/2)) := by
  constructor
  · intro r h
    rcases convertRSSI_range r h with ⟨h1, h2⟩
    refine ⟨h1, h2, fun he => ?_⟩
    rw [he] at h1
    norm_num at h1
  · intro env numPoints centerFreq stepKhz dwellUs x hx
    by_cases hp : numPoints = 0
    · rcases hx with hx | hx <;> simp [scanRSSI_v1, scanRSSI_v2, hp] at hx
    · rcases hx with hx | hx
      · simp [scanRSSI_v1, hp] at hx
        exact scanPoints_v1_outputs env _ _ _ _ x hx
      · simp [scanRSSI_v2, hp] at hx
        exact scanPoints_v2_outputs env _ _ _ _ x hx

/-- C10 witness: the range part applied at raw byte 0, and the scan part
applied to a one-point scan whose frequency programming fails (so the
recorded value is the sentinel). -/
theorem C10_rssi_range_witness :
    (0 < 256 ∧
        (-138 ≤ convertRSSI 0 ∧ convertRSSI 0 ≤ -21/2 ∧ convertRSSI 0 ≠ -999)) ∧
      ((-999 : ℚ) = -999 ∨ (-138 ≤ (-999 : ℚ) ∧ (-999 : ℚ) ≤ -21/2)) :=
  ⟨⟨by norm_num, C10_rssi_range.1 0 (by norm_num)⟩,
    C10_rssi_range.2 noneOkEnv 1 433 250 3000 (-999) (Or.inr (by decide))⟩

/-- C4 (counterexample): a scan with `numPoints = 5`, `centerFreq = 433.0`,
`stepKHz = 250` programs the frequencies 432.375, 432.625, 432.875,
433.125, 433.375 MHz — the start frequency uses the real division
`num_points / 2.0f` (2.5), not integer halving — so the claimed sequence
{432.5, 432.75, 433.0, 433.25, 433.5} is not visited (already its first
point differs). -/
theorem C4_counterexample :
    programmedFreqs (scanRSSI_v2 allOkEnv false 5 433 250 3000).2.2 =
        [432.375, 432.625, 432.875, 433.125, 433.375] ∧
      programmedFreqs (scanRSSI_v2 allOkEnv false 5 433 250 3000).2.2 ≠
        [432.5, 432.75, 433, 433.25, 433.5] := by
  have hfr : programmedFreqs (scanRSSI_v2 allOkEnv false 5 433 250 3000).2.2 =
      (List.range 5).map
        (fun (i : Nat) =>
          (433 : ℚ) - ((5 : Nat) : ℚ) / 2 * (250 / 1000) + (i : ℚ) * (250 / 1000)) := by
    simp only [scanRSSI_v2]
    rw [if_neg (by simp)]
    dsimp only
    rw [programmedFreqs_append, programmedFreqs_standby, List.append_nil,
      scanPoints_v2_freqs]
  rw [hfr]
  constructor <;> simp [List.range_succ] <;> norm_num

/-- C4 (amended): for every scan with a non-null output buffer and a
non-zero point count, the dwell time is clamped into [500, 50000]
microseconds (and every delay issued carries the clamped value), and the
frequency programmed for point `i` (0-based) equals
`centerFreq - (numPoints / 2) * (stepKHz / 1000) + i * (stepKHz / 1000)`
MHz with `numPoints / 2` the exact real (float) halving, in increasing
`i` order, in both variants; in particular a scan with `numPoints = 5`,
`centerFreq = 433.0`, `stepKHz = 250` visits exactly 432.375, 432.625,
432.875, 433.125, 433.375 MHz in that order. -/
theorem C4_scanRSSI_amended (env : ScanEnv) (outNull : Bool) (numPoints : Nat)
    (centerFreq stepKhz : ℚ) (dwellUs : Nat)
    (hn : outNull = false) (hp : numPoints ≠ 0) :
    (500 ≤ clampDwell dwellUs ∧ clampDwell dwellUs ≤ 50000 ∧
        (dwellUs < 500 → clampDwell dwellUs = 500) ∧
        (dwellUs > 50000 → clampDwell dwellUs = 50000) ∧
        (500 ≤ dwellUs → dwellUs ≤ 50000 → clampDwell dwellUs = dwellUs)) ∧
      (∀ u : Nat,
        HwOp.delayUs u ∈
            (scanRSSI_v1 env outNull numPoints centerFreq stepKhz dwellUs).2.2 ∨
          HwOp.delayUs u ∈
            (scanRSSI_v2 env outNull numPoints centerFreq stepKhz dwellUs).2.2 →
        u = clampDwell dwellUs) ∧
      programmedFreqs
          (scanRSSI_v1 env outNull numPoints centerFreq stepKhz dwellUs).2.2 =
        (List.range numPoints).map
          (fun (i : Nat) =>
            centerFreq - ((numPoints : ℚ) / 2) * (stepKhz / 1000) +
              (i : ℚ) * (stepKhz / 1000)) ∧
      programmedFreqs
          (scanRSSI_v2 env outNull numPoints centerFreq stepKhz dwellUs).2.2 =
        (List.range numPoints).map
          (fun (i : Nat) =>
            centerFreq - ((numPoints : ℚ) / 2) * (stepKhz / 1000) +
              (i : ℚ) * (stepKhz / 1000)) := by
  subst hn
  refine ⟨?_, ?_, ?_, ?_⟩
  · unfold clampDwell
    refine ⟨?_, ?_, ?_, ?_, ?_⟩ <;> intros <;> repeat' split
    all_goals omega
  · intro u hu
    rcases hu with hu | hu
    · simp [scanRSSI_v1, hp] at hu
      exact scanPoints_v1_delays env _ _ _ _ _ hu
    · simp [scanRSSI_v2, hp] at hu
      exact scanPoints_v2_delays env _ _ _ _ _ hu
  · simp only [scanRSSI_v1]
    rw [if_neg (by simp [hp])]
    dsimp only
    rw [programmedFreqs_append, programmedFreqs_cmdRx, programmedFreqs_standby,
      List.append_nil, scanPoints_v1_freqs]
  · simp only [scanRSSI_v2]
    rw [if_neg (by simp [hp])]
    dsimp only
    rw [programmedFreqs_append, programmedFreqs_standby, List.append_nil,
      scanPoints_v2_freqs]

/-- C4 witness: the amended theorem applied at the concrete scan of the
claim (5 points around 433 MHz, 250 kHz step, 3000 µs dwell). -/
theorem C4_scanRSSI_amended_witness :
    (500 ≤ clampDwell 3000 ∧ clampDwell 3000 ≤ 50000) ∧
      programmedFreqs (scanRSSI_v2 allOkEnv false 5 433 250 3000).2.2 =
        (List.range 5).map
          (fun (i : Nat) =>
            433 - ((5 : ℚ) / 2) * (250 / 1000) + (i : ℚ) * (250 / 1000)) :=
  ⟨⟨(C4_scanRSSI_amended allOkEnv false 5 433 250 3000 rfl (by norm_num)).1.1,
      (C4_scanRSSI_amended allOkEnv false 5 433 250 3000 rfl (by norm_num)).1.2.1⟩,
    (C4_scanRSSI_amended allOkEnv false 5 433 250 3000 rfl (by norm_num)).2.2.2⟩

/-! ## Transaction-queue SPI engine (`EspHal` over `spi_master`)

Bus lifecycle of the spi_master `EspHal` variant: `spiBegin` attempts
`spi_bus_initialize` and records whether this instance initialised the bus
(`busInitialized`); `ESP_ERR_INVALID_STATE` means the bus was already
initialised by another component, recorded so that `spiEnd` will not free
it; `addSpiDevice` registers one device; `spiEnd` removes the device and
frees the bus only when this instance initialised it.

Modelled from the spec: the ESP-IDF SPI service itself is outside the
repository; its calls are traced operations and `spi_bus_initialize`'s
outcome is an environment-chosen result. -/

/-- Outcomes of `spi_bus_initialize` as the code distinguishes them:
success, already-initialised (`ESP_ERR_INVALID_STATE`), or another error. -/
inductive EspErr
  | ok
  | invalidState
  | fail
  deriving DecidableEq, Repr

/-- Bus-level operations issued against the ESP-IDF SPI service. -/
inductive BusOp
  | busInit
  | busFree
  | devAdd
  | devRemove
  deriving DecidableEq, Repr

/-- State of the spi_master `EspHal`: the ownership flag set at `spiBegin`,
the device bookkeeping, and the trace of issued bus operations. -/
structure EspHalSM where
  busInitialized : Bool
  deviceAdded : Bool
  hasDevice : Bool
  ops : List BusOp
  deriving DecidableEq, Repr

/-- The constructor's initial state: no bus ownership, no device. -/
def espHalNew : EspHalSM :=
  { busInitialized := false, deviceAdded := false, hasDevice := false, ops := [] }

/-- `EspHal::spiBegin` (spi_master variant): on success the bus is
initialised and ownership recorded; on `ESP_ERR_INVALID_STATE` the bus was
already initialised elsewhere and `busInitialized` is cleared so `close`
will not free it; on any other error the state is only logged. -/
def spiBegin_sm (r : EspErr) (s : EspHalSM) : EspHalSM :=
  match r with
  | EspErr.ok => { s with busInitialized := true, ops := s.ops ++ [BusOp.busInit] }
  | EspErr.invalidState => { s with busInitialized := false }
  | EspErr.fail => s

/-- `EspHal::addSpiDevice`: with a valid CS pin and a successful
`spi_bus_add_device`, registers the device. -/
def addSpiDevice_sm (csOk addOk : Bool) (s : EspHalSM) : Bool × EspHalSM :=
  if csOk = false then (false, s)
  else if addOk = true then
    (true, { s with deviceAdded := true, hasDevice := true, ops := s.ops ++ [BusOp.devAdd] })
  else (false, s)

/-- `EspHal::spiEnd` (spi_master variant): removes the registered device
(when one was added and the handle is live), then frees the bus only if
this instance initialised it. -/
def spiEnd_sm (s : EspHalSM) : EspHalSM :=
  let s1 :=
    if s.deviceAdded = true ∧ s.hasDevice = true then
      { s with deviceAdded := false, hasDevice := false, ops := s.ops ++ [BusOp.devRemove] }
    else s
  if s1.busInitialized = true then
    { s1 with busInitialized := false, ops := s1.ops ++ [BusOp.busFree] }
  else s1

/-- C7: on the transaction-queue engine, for every `spi_bus_initialize`
outcome at open time and every device-registration outcome, `close`
(`spiEnd`) frees the underlying bus if and only if this instance was the
one that initialised the bus at open time (a bus found already-initialised
is left intact), and the registered device, when one was added, is removed
in either case. -/
theorem C7_spiEnd_busOwnership (r : EspErr) (addOk : Bool) :
    (BusOp.busFree ∈
          (spiEnd_sm (addSpiDevice_sm true addOk (spiBegin_sm r espHalNew)).2).ops ↔
        r = EspErr.ok) ∧
      (addOk = true →
        BusOp.devRemove ∈
          (spiEnd_sm (addSpiDevice_sm true addOk (spiBegin_sm r espHalNew)).2).ops) := by
  cases r <;> cases addOk <;>
    refine ⟨by decide, fun h => ?_⟩ <;>
    first
      | decide
      | exact absurd h (by decide)

/-- C7 witness: the theorem applied to a bus found already-initialised at
open time, with the device successfully registered: the device is removed
and the bus is not freed. -/
theorem C7_spiEnd_busOwnership_witness :
    ¬ BusOp.busFree ∈
        (spiEnd_sm
            (addSpiDevice_sm true true (spiBegin_sm EspErr.invalidState espHalNew)).2).ops ∧
      BusOp.devRemove ∈
        (spiEnd_sm
            (addSpiDevice_sm true true (spiBegin_sm EspErr.invalidState espHalNew)).2).ops :=
  ⟨fun h => by
      have := (C7_spiEnd_busOwnership EspErr.invalidState true).1.mp h
      exact absurd this (by decide),
    (C7_spiEnd_busOwnership EspErr.invalidState true).2 rfl⟩
